import Mathlib

/-!
Shallow embedding of the `.myscs` source-control engine
(`src/staging.py` and `src/commit_change.py`).

Modelling conventions:
* The durable repository state (the files under `.myscs/` plus the working
  directory) is a `RepoState` record.  File directories keyed by name are
  association lists with first-match lookup, mirroring filesystem uniqueness.
* File contents are `String`s (the byte/str distinction plays no role in any
  property considered here).
* SHA-1 (`hashlib.sha1(...).hexdigest()`) is an external library routine; the
  embedding is parameterised by the hashing function `hashF : String → String`,
  exactly as the clock is passed in as the rendered timestamp `now`.
* `objects/<digest>` files hold the canonical JSON serialization of a commit;
  the embedding stores the parsed `CommitData` keyed by the digest of its
  serialization (`json.load ∘ json.dumps` recovers the structure).
* Console printing and logging are observable outcomes, modelled by the
  result constructors (`CommitResult`, `StageResult`, `MergeOutcome`).
* Exceptional I/O failures (a raced read error on an existing file) are
  environmental nondeterminism and are not modelled; existence checks
  (`os.path.exists`, `os.path.getsize`) are modelled faithfully.
-/

namespace Myscs

/-- Association lookup in a list of (name, value) pairs; models reading the
file of the given name from a directory. -/
def assoc {α : Type} : List (String × α) → String → Option α
  | [], _ => none
  | (k0, v) :: rest, k => if k0 = k then some v else assoc rest k

/-- Auxiliary for substring containment on character lists. -/
def containsAux (needle : List Char) : List Char → Bool
  | [] => needle.isEmpty
  | c :: cs => needle.isPrefixOf (c :: cs) || containsAux needle cs

/-- Python's `needle in hay` substring test. -/
def strContains (hay needle : String) : Bool :=
  containsAux needle.toList hay.toList

/-- Whitespace characters removed by Python's `str.strip()`. -/
def isPyWhitespace (c : Char) : Bool :=
  c = ' ' || c = '\n' || c = '\t' || c = '\r' || c = '\x0b' || c = '\x0c'

/-- Python's `str.strip()`. -/
def strTrim (s : String) : String :=
  String.mk
    (((s.toList.dropWhile isPyWhitespace).reverse.dropWhile
        isPyWhitespace).reverse)

/-- Python's `str.startswith(needle)`. -/
def strStartsWith (hay needle : String) : Bool :=
  needle.toList.isPrefixOf hay.toList

/-- Splitting a character list on a separator character (accumulator holds
the current piece reversed). -/
def splitCharList (sep : Char) : List Char → List Char → List (List Char)
  | acc, [] => [acc.reverse]
  | acc, c :: cs =>
    if c = sep then acc.reverse :: splitCharList sep [] cs
    else splitCharList sep (c :: acc) cs

/-- Python's `str.split(sep)` for a one-character separator (the only kind
the source uses: `'/'` and `'\n'`). -/
def strSplitOn (s : String) (sep : Char) : List String :=
  (splitCharList sep [] s.toList).map String.mk

/-- String length as the number of characters (Python's `len`). -/
def strLength (s : String) : Nat :=
  s.toList.length

/-- Parsed form of a commit object, mirroring the `commit_data` dict built in
`commit` (stable insertion order: commit_message, timestamp, parent_commit,
files).  `timestamp` holds the decimal rendering of `time.time()`. -/
structure CommitData where
  commit_message : String
  timestamp : String
  parent_commit : Option String
  files : List (String × String)
deriving DecidableEq, Repr

/-- Durable repository state: the `.myscs` directory flag, the staging index
(`none` = the index file does not exist; entries are the parsed
`<path> <digest>` lines), the object store, the raw content of `HEAD`
(`none` = absent), the `refs/heads/*` files, and the working directory. -/
structure RepoState where
  myscsDir : Bool
  index : Option (List (String × String))
  objects : List (String × CommitData)
  head : Option String
  refs : List (String × String)
  workdir : List (String × String)
deriving DecidableEq, Repr

/-- Observable outcome of `stage_file` (success message with the digest, or
the file-not-found error report). -/
inductive StageResult where
  | fileNotFound : StageResult
  | staged : String → StageResult
deriving DecidableEq, Repr

/-- Embedding of `stage_file` from `src/staging.py`: missing working-directory file is
reported and nothing changes; otherwise the file is hashed, the `.myscs`
directory is created if needed, and `<path> <digest>` is APPENDED to the
index (the file is opened in mode `'a'`, which also creates it). -/
def stage_file (hashF : String → String) (path : String) (s : RepoState) :
    RepoState × StageResult :=
  match assoc s.workdir path with
  | none => (s, StageResult.fileNotFound)
  | some content =>
    let fileHash := hashF content
    ({ s with
        myscsDir := true,
        index := some ((s.index.getD []) ++ [(path, fileHash)]) },
     StageResult.staged fileHash)

/-- Embedding of `get_current_commit_hash` from `src/commit_change.py`: parse `HEAD`.
If the content contains the substring `ref: refs/heads/main`, the second
line (when present) is the hash; otherwise a bare 40-character content is a
detached hash; anything else yields `None`. -/
def get_current_commit_hash (s : RepoState) : Option String :=
  match s.head with
  | none => none
  | some raw =>
    let content := strTrim raw
    if strContains content "ref: refs/heads/main" then
      let lines := strSplitOn content '\n'
      if lines.length > 1 then lines[1]? else none
    else if strLength content = 40 then
      some content
    else none

/-- JSON escaping of one character as `json.dumps` produces it (control and
non-ASCII escapes are elided: they do not occur in the inputs considered and
do not affect determinism). -/
def jsonEscChar (c : Char) : String :=
  if c = '\\' then "\\\\"
  else if c = '"' then "\\\""
  else String.singleton c

/-- JSON string literal. -/
def jsonStr (s0 : String) : String :=
  "\"" ++ String.join (s0.toList.map jsonEscChar) ++ "\""

/-- One `(file_path, file_hash)` tuple rendered by `json.dumps(..., indent=4)`
as a two-element array at nesting depth 2. -/
def serializeEntry (e : String × String) : String :=
  "        [\n            " ++ jsonStr e.1 ++ ",\n            " ++
    jsonStr e.2 ++ "\n        ]"

/-- The `files` list rendered by `json.dumps(..., indent=4)`. -/
def serializeFiles (fs : List (String × String)) : String :=
  match fs with
  | [] => "[]"
  | _ => "[\n" ++ String.intercalate ",\n" (fs.map serializeEntry) ++ "\n    ]"

/-- Rendering of the `parent_commit` field value: `null` for `None`, else a JSON string. -/
def serializeParent : Option String → String
  | none => "null"
  | some p => jsonStr p

/-- Canonical serialization `json.dumps(commit_data, indent=4)`: the canonical serialization of a
commit object, with the dict's stable insertion order of fields. -/
def serializeCommit (cd : CommitData) : String :=
  "\x7b\n    \"commit_message\": " ++ jsonStr cd.commit_message ++
    ",\n    \"timestamp\": " ++ cd.timestamp ++
    ",\n    \"parent_commit\": " ++ serializeParent cd.parent_commit ++
    ",\n    \"files\": " ++ serializeFiles cd.files ++ "\n\x7d"

/-- Observable outcome of `commit` (each failure constructor corresponds to
one error report printed by `commit`; `committed d` is the success report
with the new commit hash). -/
inductive CommitResult where
  | nothingToCommit : CommitResult
  | stagedFileMissing : String → CommitResult
  | stagedFileModified : String → CommitResult
  | committed : String → CommitResult
deriving DecidableEq, Repr

/-- Step 3 of `commit`: walk the staged entries in order; the first entry
whose path does not exist reports `stagedFileMissing`, the first whose
recomputed digest differs from the staged digest reports
`stagedFileModified`; `none` means all entries validated. -/
def validateStaged (hashF : String → String) (wd : List (String × String)) :
    List (String × String) → Option CommitResult
  | [] => none
  | (p, h) :: rest =>
    match assoc wd p with
    | none => some (CommitResult.stagedFileMissing p)
    | some content =>
      if hashF content ≠ h then some (CommitResult.stagedFileModified p)
      else validateStaged hashF wd rest

/-- Embedding of `commit` from `src/commit_change.py`.  Missing or empty index stops with
`nothingToCommit`; a validation failure stops with the state unchanged; on
success the commit object is stored under the digest of its serialization
and `HEAD` is rewritten to `ref: refs/heads/main\n<hash>`.  Note: the code
has no step that clears the index, and it never writes `refs/heads/*`. -/
def commit (hashF : String → String) (commitMessage now : String)
    (s : RepoState) : RepoState × CommitResult :=
  match s.index with
  | none => (s, CommitResult.nothingToCommit)
  | some stagedFiles =>
    if stagedFiles.isEmpty then (s, CommitResult.nothingToCommit)
    else
      match validateStaged hashF s.workdir stagedFiles with
      | some err => (s, err)
      | none =>
        let commitData : CommitData :=
          ⟨commitMessage, now, get_current_commit_hash s, stagedFiles⟩
        let commitDataStr := serializeCommit commitData
        let commitHash := hashF commitDataStr
        ({ s with
            objects := (commitHash, commitData) :: s.objects,
            head := some ("ref: refs/heads/main\n" ++ commitHash) },
         CommitResult.committed commitHash)

/-- Embedding of `get_current_branch`: if `HEAD` starts with `ref: refs/heads/`, return
`content.split('/')[-1]` (note: on the two-line HEAD this keeps the hash
line glued to the branch name). -/
def get_current_branch (s : RepoState) : Option String :=
  match s.head with
  | none => none
  | some raw =>
    let content := strTrim raw
    if strStartsWith content "ref: refs/heads/" then
      some (((strSplitOn content '/').getLast?).getD "")
    else none

/-- Embedding of `get_commit_hash_for_branch`: read `refs/heads/<branch>` if present. -/
def get_commit_hash_for_branch (s : RepoState) (branch : String) :
    Option String :=
  (assoc s.refs branch).map strTrim

/-- Embedding of `perform_merge`: the source's merge logic is a stub that inspects
nothing and reports success unconditionally. -/
def perform_merge (_currentBranch : Option String) (_targetBranch : String) :
    Bool :=
  true

/-- Observable outcome of `merge` (the four console reports of `merge`). -/
inductive MergeOutcome where
  | alreadyOnBranch : MergeOutcome
  | unknownBranch : MergeOutcome
  | mergeSuccess : MergeOutcome
  | mergeConflict : MergeOutcome
deriving DecidableEq, Repr

/-- Embedding of `merge` from `src/commit_change.py`: same-branch and unknown-branch are
reported without effect; otherwise the result of `perform_merge` selects the
success or the conflict report.  No state is ever written. -/
def merge (targetBranch : String) (s : RepoState) :
    RepoState × MergeOutcome :=
  if get_current_branch s = some targetBranch then
    (s, MergeOutcome.alreadyOnBranch)
  else
    match get_commit_hash_for_branch s targetBranch with
    | none => (s, MergeOutcome.unknownBranch)
    | some _ =>
      if perform_merge (get_current_branch s) targetBranch then
        (s, MergeOutcome.mergeSuccess)
      else (s, MergeOutcome.mergeConflict)

/-- Python truthiness of the loop variable `current_commit_hash` in
`view_commit_history` (`None` and the empty string are falsy). -/
def truthy : Option String → Bool
  | none => false
  | some h => !(h == "")

/-- One execution of the body of the `while current_commit_hash:` loop in
`view_commit_history`: a missing object breaks out of the loop (modelled as
the falsy value `none`), otherwise the loop variable becomes
`commit_data.get("parent_commit")`. -/
def historyStep (s : RepoState) : Option String → Option String
  | none => none
  | some h =>
    match assoc s.objects h with
    | none => none
    | some cd => cd.parent_commit

/-- The loop variable of `view_commit_history` after at most `n` iterations:
each step runs the body only while the loop condition (truthiness) holds. -/
def historyIter (s : RepoState) : Nat → Option String → Option String
  | 0, cur => cur
  | n + 1, cur =>
    if truthy cur then historyIter s n (historyStep s cur) else cur

/-- The loop of `view_commit_history` terminates from `cur` iff after some
number of iterations the loop condition is false. -/
def historyTerminates (s : RepoState) (cur : Option String) : Prop :=
  ∃ n, truthy (historyIter s n cur) = false

/-- Starting value of the traversal in `view_commit_history`: requires a
`ref: refs/heads/main` HEAD and takes the last line of its content. -/
def history_start (s : RepoState) : Option String :=
  match s.head with
  | none => none
  | some raw =>
    let content := strTrim raw
    if strContains content "ref: refs/heads/main" then
      some (((strSplitOn content '\n').getLast?).getD "")
    else none


/-! ### Concrete repository states used as witnesses and counterexamples -/

/-- A stand-in hashing function with constant output (the embedding is
parameterised by the hash; nothing below depends on its shape). -/
def hashConst : String → String := fun _ => "hc"

/-- Hashing function distinguishing the content "good" from everything else,
used to exhibit a staged-then-modified file. -/
def hashC5 : String → String := fun c => if c = "good" then "hg" else "hx"

/-- Fresh repository: no `.myscs`, no index, no HEAD. -/
def stEmpty : RepoState := ⟨false, none, [], none, [], []⟩

/-- Repository with one staged, unmodified file `a` and no HEAD. -/
def stC2 : RepoState :=
  ⟨true, some [("a", "hc")], [], none, [], [("a", "v")]⟩

/-- Repository with working file `a` (content `v1`) and no index yet. -/
def stC3 : RepoState := ⟨false, none, [], none, [], [("a", "v1")]⟩

/-- Repository whose HEAD symbolically references branch `dev` (with tip
`H0` in `refs/heads/dev`) and with one staged, unmodified file. -/
def stC4 : RepoState :=
  ⟨true, some [("a", "hc")], [], some "ref: refs/heads/dev\nH0",
   [("dev", "H0")], [("a", "v")]⟩

/-- Repository with one staged file whose digest on record (`old`) differs
from the digest of its current content (`hashC5 "good" = "hg"`). -/
def stC5 : RepoState :=
  ⟨true, some [("a", "old")], [], none, [], [("a", "good")]⟩

/-- Repository with a detached HEAD (bare 40-character digest) and one
staged, unmodified file. -/
def stC9 : RepoState :=
  ⟨true, some [("a", "hc")], [],
   some "cccccccccccccccccccccccccccccccccccccccc", [], [("a", "v")]⟩

/-- Base commit of the divergent-branch conflict scenario: path `x` at
digest `d0`. -/
def confBase : CommitData := ⟨"base", "0", none, [("x", "d0")]⟩

/-- Tip of branch `A`: path `x` changed to digest `d1` since the base. -/
def confA : CommitData := ⟨"A: x to d1", "1", some "c0", [("x", "d1")]⟩

/-- Tip of branch `B`: path `x` changed to digest `d2` since the base. -/
def confB : CommitData := ⟨"B: x to d2", "1", some "c0", [("x", "d2")]⟩

/-- The conflict scenario: branches `A` (current, HEAD) and `B` diverged
from base `c0` and record different digests for the same path `x`. -/
def confState : RepoState :=
  ⟨true, some [], [("c0", confBase), ("cA", confA), ("cB", confB)],
   some ("ref: refs/heads/A\ncA"), [("A", "cA"), ("B", "cB")], [("x", "v2")]⟩

/-- A 40-character digest for the cyclic-store scenario. -/
def cycDigest : String := "aaaaaaaaaaaaaaaaaaaaaaaaaaaaaaaaaaaaaaaa"

/-- A stored commit whose `parent_commit` is its own digest (a cycle in the
stored parent links, as producible by store corruption or tampering). -/
def cycCommit : CommitData := ⟨"loop", "0", some cycDigest, []⟩

/-- Object store containing the self-parent commit, with HEAD on it. -/
def cycState : RepoState :=
  ⟨true, some [], [(cycDigest, cycCommit)],
   some ("ref: refs/heads/main\n" ++ cycDigest), [], []⟩

/-- A 40-character digest for the single-root-commit scenario. -/
def rootDigest : String := "bbbbbbbbbbbbbbbbbbbbbbbbbbbbbbbbbbbbbbbb"

/-- A root commit: zero parents. -/
def rootCommit : CommitData := ⟨"root", "0", none, []⟩

/-- Object store containing only the root commit, with HEAD on it. -/
def rootState : RepoState :=
  ⟨true, some [], [(rootDigest, rootCommit)],
   some ("ref: refs/heads/main\n" ++ rootDigest), [], []⟩

/-! ### Helper lemmas -/

/-- Validation never reports a successful commit: `validateStaged` only ever
produces the missing-file or the modified-file error. -/
theorem validateStaged_ne_committed (hashF : String → String)
    (wd : List (String × String)) :
    ∀ staged r, validateStaged hashF wd staged = some r →
      ∀ d, r ≠ CommitResult.committed d := by
  intro staged
  induction staged with
  | nil => intro r hr d; simp [validateStaged] at hr
  | cons e rest ih =>
    intro r hr d
    obtain ⟨p, h⟩ := e
    unfold validateStaged at hr
    split at hr
    · injection hr with hr'
      subst hr'
      intro hcon; cases hcon
    · split at hr
      · injection hr with hr'
        subst hr'
        intro hcon; cases hcon
      · exact ih r hr d

/-- When every staged path exists in the working directory and some staged
entry hashes differently from its recorded digest, validation stops at the
first such entry with the modified-file error. -/
theorem validateStaged_finds_modified (hashF : String → String)
    (wd : List (String × String)) :
    ∀ staged : List (String × String),
    (∀ e ∈ staged, assoc wd e.1 ≠ none) →
    (∃ e ∈ staged, (assoc wd e.1).map hashF ≠ some e.2) →
    ∃ p, (∃ e ∈ staged, e.1 = p ∧ (assoc wd p).map hashF ≠ some e.2) ∧
      validateStaged hashF wd staged
        = some (CommitResult.stagedFileModified p) := by
  intro staged
  induction staged with
  | nil => intro _ hmod; simp at hmod
  | cons e rest ih =>
    intro hex hmod
    obtain ⟨p0, h0⟩ := e
    have hx : assoc wd p0 ≠ none := hex (p0, h0) (by simp)
    obtain ⟨c0, hc0⟩ : ∃ c, assoc wd p0 = some c := by
      cases h : assoc wd p0
      · exact absurd h hx
      · exact ⟨_, rfl⟩
    by_cases hmis : hashF c0 ≠ h0
    · refine ⟨p0, ⟨(p0, h0), by simp, rfl, ?_⟩, ?_⟩
      · rw [hc0]
        simpa using hmis
      · unfold validateStaged
        rw [hc0]
        dsimp only
        rw [if_pos hmis]
    · push_neg at hmis
      obtain ⟨e, he, hne⟩ := hmod
      rcases List.mem_cons.mp he with heq | hrest
      · exfalso
        subst heq
        rw [hc0] at hne
        simp [hmis] at hne
      · obtain ⟨p, ⟨e1, he1, hpe, hne1⟩, hval⟩ :=
          ih (fun e2 he2 => hex e2 (List.mem_cons_of_mem _ he2)) ⟨e, hrest, hne⟩
        refine ⟨p, ⟨e1, List.mem_cons_of_mem _ he1, hpe, hne1⟩, ?_⟩
        unfold validateStaged
        rw [hc0]
        dsimp only
        rw [if_neg (not_not_intro hmis)]
        exact hval

/-- Shape of the state after a successful `commit`: the index, the refs and
the working directory are untouched, and HEAD is rewritten to the symbolic
`main` reference followed by the new digest. -/
theorem commit_success_shape (hashF : String → String) (msg now : String)
    (s sNew : RepoState) (d : String)
    (hc : commit hashF msg now s = (sNew, CommitResult.committed d)) :
    sNew.refs = s.refs ∧ sNew.index = s.index ∧ sNew.workdir = s.workdir ∧
      sNew.objects =
        (d, ⟨msg, now, get_current_commit_hash s, s.index.getD []⟩)
          :: s.objects ∧
      sNew.head = some ("ref: refs/heads/main\n" ++ d) := by
  unfold commit at hc
  split at hc
  · exact absurd hc (by simp)
  next stagedFiles hidx =>
    split at hc
    · exact absurd hc (by simp)
    next hne =>
      split at hc
      next err heq =>
        injection hc with h1 h2
        exact absurd h2 (validateStaged_ne_committed hashF s.workdir
          stagedFiles err heq d)
      next heq =>
        dsimp only at hc
        injection hc with h1 h2
        injection h2 with h3
        subst h1
        subst h3
        refine ⟨rfl, rfl, rfl, ?_, rfl⟩
        rw [hidx]
        rfl

/-- The loop variable of the history traversal over the cyclic store never
leaves the self-parent digest. -/
theorem historyIter_cyc (n : Nat) :
    historyIter cycState n (some cycDigest) = some cycDigest := by
  induction n with
  | zero => rfl
  | succ n ih =>
    have hstep : historyStep cycState (some cycDigest) = some cycDigest := by
      decide
    have ht : truthy (some cycDigest) = true := by decide
    rw [historyIter, ht, if_pos rfl, hstep, ih]

/-! ### Claim theorems -/

/-- Claim C1 (code evaluated at the failing input): in the conflict scenario
— branches `A` (current) and `B` diverged from base `c0`, with `A`'s tip
recording path `x` at digest `d1` and `B`'s tip recording `x` at digest
`d2 ≠ d1` — `merge` does not detect the conflict: the stubbed
`perform_merge` makes it report plain success, leaving the state (hence
both tips) unchanged and writing nothing.  The code has no conflicted
outcome at all for this input, contradicting the claimed
`Conflicted({x})`. -/
theorem merge_stub_reports_success_on_conflict :
    (assoc confState.objects "cA").map CommitData.files = some [("x", "d1")] ∧
    (assoc confState.objects "cB").map CommitData.files = some [("x", "d2")] ∧
    (assoc confState.objects "cA").bind CommitData.parent_commit = some "c0" ∧
    (assoc confState.objects "cB").bind CommitData.parent_commit = some "c0" ∧
    merge "B" confState = (confState, MergeOutcome.mergeSuccess) := by
  decide

/-- Claim C2, amended: a commit never clears the staging index — on every
path through `commit` (success included) the index is exactly what it was
before the call. -/
theorem commit_never_clears_index (hashF : String → String)
    (msg now : String) (s : RepoState) :
    ((commit hashF msg now s).1).index = s.index := by
  unfold commit
  split
  · rfl
  · split
    · rfl
    · split
      · rfl
      · rfl

/-- Claim C2, counterexample: a successful commit from a one-entry index
returns with the index still holding that entry, not cleared. -/
theorem commit_success_index_not_cleared_cex :
    (commit hashConst "m" "0" stC2).2 = CommitResult.committed "hc" ∧
    ((commit hashConst "m" "0" stC2).1).index = some [("a", "hc")] := by
  decide

/-- Claim C3, amended: when the path exists in the working directory,
staging appends one `(path, digest)` entry to the end of the index (creating
the index if absent); the digest of the most recent staging of the path is
therefore held by the last entry. -/
theorem stage_file_appends (hashF : String → String) (p : String)
    (s : RepoState) (c : String) (hc : assoc s.workdir p = some c) :
    ((stage_file hashF p s).1).index
      = some ((s.index.getD []) ++ [(p, hashF c)]) ∧
    (((stage_file hashF p s).1).index.getD []).getLast? = some (p, hashF c) := by
  unfold stage_file
  rw [hc]
  dsimp only
  exact ⟨rfl, by simp⟩

/-- Claim C3, witness: staging file `a` (content `v1`) of `stC3` appends the
entry `("a", hashConst "v1")`, which is the last (and here only) entry. -/
theorem stage_file_appends_witness :
    ((stage_file hashConst "a" stC3).1).index = some [("a", "hc")] ∧
    (((stage_file hashConst "a" stC3).1).index.getD []).getLast?
      = some ("a", "hc") :=
  stage_file_appends hashConst "a" stC3 "v1" (by decide)

/-- Claim C3, counterexample: staging the same path twice appends twice, so
the index holds two entries with the same path — the claimed upsert (no
duplicate paths) fails. -/
theorem stage_twice_duplicate_paths_cex :
    ((stage_file hashConst "a" (stage_file hashConst "a" stC3).1).1).index
      = some [("a", "hc"), ("a", "hc")] ∧
    ((((stage_file hashConst "a"
          (stage_file hashConst "a" stC3).1).1).index.getD []).countP
        (fun e => e.1 == "a")) = 2 := by
  decide

/-- Claim C4, amended: a successful commit writes no `refs/heads` file (the
refs are exactly as before), and instead rewrites HEAD to the symbolic
`ref: refs/heads/main` line followed by the new digest, whatever HEAD was
before (symbolic on any branch, detached, or absent). -/
theorem commit_success_refs_untouched (hashF : String → String)
    (msg now : String) (s sNew : RepoState) (d : String)
    (hc : commit hashF msg now s = (sNew, CommitResult.committed d)) :
    sNew.refs = s.refs ∧
    sNew.head = some ("ref: refs/heads/main\n" ++ d) := by
  obtain ⟨h1, _, _, _, h5⟩ := commit_success_shape hashF msg now s sNew d hc
  exact ⟨h1, h5⟩

/-- Claim C4, witness: committing on `stC4` succeeds and leaves
`refs/heads/dev` bearing its old tip while HEAD becomes the `main`
reference with the new digest. -/
theorem commit_success_refs_untouched_witness :
    ((commit hashConst "m" "0" stC4).1).refs = stC4.refs ∧
    ((commit hashConst "m" "0" stC4).1).head
      = some ("ref: refs/heads/main\n" ++ "hc") :=
  commit_success_refs_untouched hashConst "m" "0" stC4
    (commit hashConst "m" "0" stC4).1 "hc" (by decide)

/-- Claim C4, counterexample: with HEAD symbolically referencing branch
`dev` (tip `H0`), a successful commit does not advance `refs/heads/dev` to
the new digest `hc`; the per-branch ref still holds `H0`. -/
theorem commit_branch_ref_not_advanced_cex :
    (commit hashConst "m" "0" stC4).2 = CommitResult.committed "hc" ∧
    ((commit hashConst "m" "0" stC4).1).refs = [("dev", "H0")] ∧
    assoc ((commit hashConst "m" "0" stC4).1).refs "dev" ≠ some "hc" := by
  decide

/-- Claim C5: if every staged path still exists in the working directory and
some staged entry's file now hashes differently from its staged digest, then
`commit` fails with the modified-file error for such a path (the first one
validation meets) and returns the state untouched — no object is created,
no ref or HEAD is advanced, and the index is exactly as before. -/
theorem commit_modified_staged_file_fails (hashF : String → String)
    (msg now : String) (s : RepoState) (staged : List (String × String))
    (hidx : s.index = some staged)
    (hex : ∀ e ∈ staged, assoc s.workdir e.1 ≠ none)
    (hmod : ∃ e ∈ staged, (assoc s.workdir e.1).map hashF ≠ some e.2) :
    ∃ p, (∃ e ∈ staged, e.1 = p ∧ (assoc s.workdir p).map hashF ≠ some e.2) ∧
      commit hashF msg now s = (s, CommitResult.stagedFileModified p) := by
  obtain ⟨p, hp, hval⟩ :=
    validateStaged_finds_modified hashF s.workdir staged hex hmod
  refine ⟨p, hp, ?_⟩
  have hne : staged.isEmpty = false := by
    obtain ⟨e, he, _⟩ := hmod
    cases staged
    · cases he
    · rfl
  unfold commit
  rw [hidx]
  simp only [hne, Bool.false_eq_true, if_false, hval]

/-- Claim C5, witness: in `stC5` the staged digest `old` of file `a`
disagrees with the digest `hg` of its current content, and commit fails with
the modified-file error for `a`, leaving the state untouched. -/
theorem commit_modified_staged_file_fails_witness :
    ∃ p, (∃ e ∈ [("a", "old")], e.1 = p ∧
        (assoc stC5.workdir p).map hashC5 ≠ some e.2) ∧
      commit hashC5 "m" "0" stC5 = (stC5, CommitResult.stagedFileModified p) :=
  commit_modified_staged_file_fails hashC5 "m" "0" stC5 [("a", "old")]
    (by decide) (by decide) (by decide)

/-- Claim C6: with a missing or empty index file, `commit` reports
nothing-to-commit and returns the state untouched — no object is created
and no ref or HEAD is advanced. -/
theorem commit_empty_index_fails (hashF : String → String)
    (msg now : String) (s : RepoState)
    (h : s.index = none ∨ s.index = some []) :
    commit hashF msg now s = (s, CommitResult.nothingToCommit) := by
  rcases h with h | h
  · unfold commit
    rw [h]
  · unfold commit
    rw [h]
    rfl

/-- Claim C6, witness: committing on the fresh repository (no index file)
reports nothing-to-commit and changes nothing. -/
theorem commit_empty_index_fails_witness :
    commit hashConst "m" "0" stEmpty = (stEmpty, CommitResult.nothingToCommit) :=
  commit_empty_index_fails hashConst "m" "0" stEmpty (Or.inl rfl)

/-- Claim C7, amended: the history traversal terminates whenever the stored
parent links are well-founded, witnessed by any rank function that decreases
along them; the code has no cycle guard, so on a store whose parent links
form a cycle the loop never exits (see the counterexample). -/
theorem history_terminates_of_rank (s : RepoState) (rank : String → Nat)
    (hdec : ∀ d cd, assoc s.objects d = some cd →
        ∀ p, cd.parent_commit = some p → rank p < rank d)
    (start : Option String) :
    historyTerminates s start := by
  suffices H : ∀ k cur, cur.elim 0 rank < k →
      ∃ n, truthy (historyIter s n cur) = false by
    exact H (start.elim 0 rank + 1) start (Nat.lt_succ_self _)
  intro k
  induction k with
  | zero => intro cur h; exact absurd h (Nat.not_lt_zero _)
  | succ k ih =>
    intro cur hk
    match cur with
    | none => exact ⟨0, rfl⟩
    | some d =>
      by_cases hd : d = ""
      · subst hd
        exact ⟨0, rfl⟩
      · have ht : truthy (some d) = true := by
          simp [truthy, hd]
        cases hobj : assoc s.objects d with
        | none =>
          refine ⟨1, ?_⟩
          simp [historyIter, historyStep, hobj, truthy, hd]
        | some cd =>
          cases hpar : cd.parent_commit with
          | none =>
            refine ⟨1, ?_⟩
            simp [historyIter, historyStep, hobj, hpar, truthy, hd]
          | some p =>
            have hlt : rank p < rank d := hdec d cd hobj p hpar
            have hk2 : (some p).elim 0 rank < k := by
              have hdk : rank d ≤ k := Nat.lt_succ_iff.mp hk
              exact Nat.lt_of_lt_of_le hlt hdk
            obtain ⟨n, hn⟩ := ih (some p) hk2
            refine ⟨n + 1, ?_⟩
            have hstep : historyIter s (n + 1) (some d)
                = historyIter s n (some p) := by
              rw [historyIter, ht, if_pos rfl]
              congr 1
              simp [historyStep, hobj, hpar]
            rw [hstep, hn]

/-- Claim C7, witness: on the store holding only the parentless root commit,
the traversal terminates (rank function constantly zero). -/
theorem history_terminates_of_rank_witness :
    historyTerminates rootState (some rootDigest) :=
  history_terminates_of_rank rootState (fun _ => 0)
    (by
      intro d cd hobj p hpar
      exfalso
      simp only [rootState, assoc] at hobj
      split at hobj
      · injection hobj with h1
        subst h1
        simp [rootCommit] at hpar
      · cases hobj)
    (some rootDigest)

/-- Claim C7, counterexample: on a store whose parent links form a cycle (a
commit recorded as its own parent), the traversal of `view_commit_history`
never terminates — after any number of iterations the loop condition still
holds, refuting the claim that the traversal cannot loop forever on cyclic
stored parent links. -/
theorem history_cycle_never_terminates_cex :
    ¬ historyTerminates cycState (some cycDigest) := by
  rintro ⟨n, hn⟩
  rw [historyIter_cyc n] at hn
  exact absurd hn (by decide)

/-- Claim C8: the canonical serialization of a commit object and the digest
computed from it are deterministic — two commit objects with the same
message, timestamp, parent and file list serialize to the identical string
and hash (under the SHA-1 routine, modelled as the function `hashF`) to the
identical digest. -/
theorem serialize_digest_deterministic (hashF : String → String)
    (m1 m2 t1 t2 : String) (p1 p2 : Option String)
    (f1 f2 : List (String × String))
    (hm : m1 = m2) (ht : t1 = t2) (hp : p1 = p2) (hf1 : f1 = f2) :
    serializeCommit ⟨m1, t1, p1, f1⟩ = serializeCommit ⟨m2, t2, p2, f2⟩ ∧
    hashF (serializeCommit ⟨m1, t1, p1, f1⟩)
      = hashF (serializeCommit ⟨m2, t2, p2, f2⟩) := by
  subst hm
  subst ht
  subst hp
  subst hf1
  exact ⟨rfl, rfl⟩

/-- Claim C8, witness: a concrete commit content serializes and hashes to
the identical result on both of two computations. -/
theorem serialize_digest_deterministic_witness :
    serializeCommit ⟨"m", "1.5", some "p0", [("a", "h1")]⟩
        = serializeCommit ⟨"m", "1.5", some "p0", [("a", "h1")]⟩ ∧
    hashConst (serializeCommit ⟨"m", "1.5", some "p0", [("a", "h1")]⟩)
        = hashConst (serializeCommit ⟨"m", "1.5", some "p0", [("a", "h1")]⟩) :=
  serialize_digest_deterministic hashConst "m" "m" "1.5" "1.5"
    (some "p0") (some "p0") [("a", "h1")] [("a", "h1")] rfl rfl rfl rfl

/-- Claim C9: every successful commit leaves HEAD in the symbolic state
referencing branch `main` — the line `ref: refs/heads/main` followed by the
new digest — whatever HEAD held before the call. -/
theorem commit_success_head_is_main (hashF : String → String)
    (msg now : String) (s sNew : RepoState) (d : String)
    (hc : commit hashF msg now s = (sNew, CommitResult.committed d)) :
    sNew.head = some ("ref: refs/heads/main\n" ++ d) :=
  (commit_success_shape hashF msg now s sNew d hc).2.2.2.2

/-- Claim C9, witness: committing on `stC9`, whose HEAD is detached (a bare
40-character digest), succeeds and rewrites HEAD to the `main` reference
with the new digest. -/
theorem commit_success_head_is_main_witness :
    ((commit hashConst "m" "0" stC9).1).head
      = some ("ref: refs/heads/main\n" ++ "hc") :=
  commit_success_head_is_main hashConst "m" "0" stC9
    (commit hashConst "m" "0" stC9).1 "hc" (by decide)

/-- Claim C10: staging mutates only the staging index and the `.myscs`
directory flag — the object store, HEAD, the refs and the working directory
are untouched on every input — and when the path is missing from the
working directory the whole state is returned unchanged with the
file-not-found report. -/
theorem stage_file_frame (hashF : String → String) (p : String)
    (s : RepoState) :
    ((stage_file hashF p s).1).objects = s.objects ∧
    ((stage_file hashF p s).1).head = s.head ∧
    ((stage_file hashF p s).1).refs = s.refs ∧
    ((stage_file hashF p s).1).workdir = s.workdir ∧
    (assoc s.workdir p = none →
      stage_file hashF p s = (s, StageResult.fileNotFound)) := by
  unfold stage_file
  cases h : assoc s.workdir p
  · exact ⟨rfl, rfl, rfl, rfl, fun _ => rfl⟩
  · exact ⟨rfl, rfl, rfl, rfl, fun hn => Option.noConfusion hn⟩

/-- Claim C10, witness: staging the missing path `zz` leaves the repository
exactly as it was and reports file-not-found. -/
theorem stage_file_frame_witness :
    stage_file hashConst "zz" stC3 = (stC3, StageResult.fileNotFound) :=
  (stage_file_frame hashConst "zz" stC3).2.2.2.2 (by decide)

end Myscs
